import Mathlib

/-!
Shallow embedding of the Cadence matching-service task-list Scavenger
(`service/worker/scanner/tasklist`, sampled in `grpcHandler.go` of the spec
pack): the expired-task reclaim loop `deleteHandler`, the idle task-list
deletion `tryDeleteTaskList`, the expiry predicate `isTaskExpired`, and the
orphan-task reconciliation `completeOrphanTasksHandler`.

Times are unix nanoseconds as `Int` (Go `time.Time` values compared with
`After`, i.e. strict `<`).  Persistence is modelled as the taskID-sorted list
of task rows of the queue; fallible persistence calls are driven by explicit
fault schedules, one entry consumed per call (`none` = call succeeds, missing
entries default to success), mirroring that each Go call either returns the
distinguished `ratelimited.ErrPersistenceLimitExceeded` or some other error
or succeeds.
-/

namespace Cadence
namespace Tasklist

/-- Handler status, `executor.TaskStatus` in the source: `handlerStatusDone`,
`handlerStatusErr`, `handlerStatusDefer`. -/
inductive HandlerStatus
  | Done
  | Err
  | Defer
deriving DecidableEq

/-- Errors a persistence call can produce.  The source compares errors against
the distinguished value `ratelimited.ErrPersistenceLimitExceeded`; every other
error value is collapsed into `other`. -/
inductive PersistenceError
  | rateLimited
  | other
deriving DecidableEq

/-- A task row (`p.TaskInfo`), restricted to the two fields the scavenger
reads: `TaskID` and `Expiry` (unix nanoseconds; the zero value stands for
`time.Unix(0, 0)`, i.e. no expiry). -/
structure TaskInfo where
  taskID : Int
  expiry : Int
deriving DecidableEq

/-- An orphan-task key as returned by `getOrphanTasks`
(domain, task-list name, task type, task id). -/
structure TaskKey where
  domainID : String
  taskListName : String
  taskType : Nat
  taskID : Int
deriving DecidableEq

/-- Task-list metadata (`p.TaskListInfo`), restricted to the fields the
scavenger reads. -/
structure TaskListInfo where
  domainID : String
  name : String
  taskType : Nat
  rangeID : Int
  lastUpdated : Int
deriving DecidableEq

/-- The scavenger's run parameters: `time.Now()` (held fixed for a run),
the `taskListGracePeriod` constant (48 hours in the source), and the two
configuration accessors `taskBatchSizeFn` and `maxTasksPerJobFn`, read once
at the top of `deleteHandler`. -/
structure ScavengerEnv where
  now : Int
  gracePeriod : Int
  taskBatchSize : Nat
  maxTasksPerJob : Nat
deriving DecidableEq

/-- The source constant `scannerTaskListPrefix`: the scavenger's own
bookkeeping task lists carry this name prefix and are never deleted. -/
def scannerTaskListPrefix : String := "cadence-sys-tl-scanner"

/-- Source: `t.Expiry.After(time.Unix(0, 0)) && time.Now().After(t.Expiry)`.
Go `a.After(b)` is strict `b < a`. -/
def isTaskExpired (now : Int) (t : TaskInfo) : Bool :=
  0 < t.expiry && t.expiry < now

/-- Outcome of `tryDeleteTaskList`: whether the conditional `deleteTaskList`
persistence call was issued (all prechecks passed), and whether it
succeeded. -/
structure TryDeleteOutcome where
  attempted : Bool
  deleted : Bool
deriving DecidableEq

/-- Source `tryDeleteTaskList`: skip the scavenger's own task lists
(`strings.HasPrefix(info.Name, scannerTaskListPrefix)`), skip task lists
updated within the grace period (`time.Since(info.LastUpdated) <
taskListGracePeriod`), then issue the conditional (rangeID-fenced) delete,
whose failure (`deleteFault = some e`) is logged and leaves the task list
intact. -/
def tryDeleteTaskList (env : ScavengerEnv) (deleteFault : Option PersistenceError)
    (info : TaskListInfo) : TryDeleteOutcome :=
  if info.name.startsWith scannerTaskListPrefix then ⟨false, false⟩
  else if env.now - info.lastUpdated < env.gracePeriod then ⟨false, false⟩
  else
    match deleteFault with
    | some _ => ⟨true, false⟩
    | none => ⟨true, true⟩

/-- Pop the next entry of a fault schedule; an exhausted schedule means the
call succeeds. -/
def nextFault : List (Option PersistenceError) →
    Option PersistenceError × List (Option PersistenceError)
  | [] => (none, [])
  | f :: fs => (f, fs)

/-- The inner `for _, task := range resp.Tasks` loop of `deleteHandler`:
walk the batch incrementing the processed count for each task; stop at the
first task that is not expired.  Returns the number of tasks processed and
whether an unexpired task was hit. -/
def processBatch (now : Int) : List TaskInfo → Nat × Bool
  | [] => (0, false)
  | t :: ts =>
    if isTaskExpired now t then
      let r := processBatch now ts
      (r.1 + 1, r.2)
    else (1, true)

/-- Effect on the stored rows of the persistence call
`completeTasks(taskList, uptoTaskID, count)`: scanning the rows in order,
delete up to `count` rows whose taskID is at most `uptoTaskID`. -/
def completeTasksApply (upto : Int) : Nat → List TaskInfo → List TaskInfo
  | 0, ts => ts
  | _ + 1, [] => []
  | n + 1, t :: ts =>
    if t.taskID ≤ upto then completeTasksApply upto n ts
    else t :: completeTasksApply upto (n + 1) ts

/-- Placeholder row used only to read the taskID of the last row of a batch
that is known to be nonempty (`resp.Tasks[nTasks-1].TaskID`). -/
def dummyTask : TaskInfo := ⟨0, 0⟩

/-- Everything one run of `deleteHandler` produces: the returned status, the
rows left in persistence, whether `tryDeleteTaskList` was invoked, whether it
issued and whether it completed the metadata delete, the counters fed to
`deleteHandlerLog`, and the final value of the handler's `err` variable. -/
structure DeleteRunResult where
  status : HandlerStatus
  tasks : List TaskInfo
  triedDelete : Bool
  metaDeleteAttempted : Bool
  metaDeleted : Bool
  nProcessed : Nat
  nDeleted : Nat
  err : Option PersistenceError
deriving DecidableEq

/-- The `for nProcessed < maxTasksPerJob` loop of `deleteHandler`.  `fuel`
only bounds the number of iterations: the loop re-enters solely after
deleting a full batch, which adds `taskBatchSize ≥ 1` to `nProcessed` while
`nProcessed < maxTasksPerJob` held on entry, so `maxTasksPerJob + 1` units
of fuel are never exhausted (the `fuel = 0` value equals the
budget-exhausted `Defer` return and is unreachable from `deleteHandler`). -/
def deleteLoop (env : ScavengerEnv) (info : TaskListInfo)
    (deleteFault : Option PersistenceError) :
    Nat → List (Option PersistenceError) → List (Option PersistenceError) →
    List TaskInfo → Nat → Nat → DeleteRunResult
  | 0, _, _, tasks, nProcessed, nDeleted =>
    ⟨.Defer, tasks, false, false, false, nProcessed, nDeleted, none⟩
  | fuel + 1, getFaults, completeFaults, tasks, nProcessed, nDeleted =>
    if nProcessed < env.maxTasksPerJob then
      match (nextFault getFaults).1 with
      | some e =>
        ⟨.Err, tasks, false, false, false, nProcessed, nDeleted, some e⟩
      | none =>
        let batch := tasks.take env.taskBatchSize
        if batch.length = 0 then
          let ad := tryDeleteTaskList env deleteFault info
          ⟨.Done, tasks, true, ad.attempted, ad.deleted, nProcessed, nDeleted, none⟩
        else
          let pb := processBatch env.now batch
          if pb.2 then
            ⟨.Done, tasks, false, false, false, nProcessed + pb.1, nDeleted, none⟩
          else
            match (nextFault completeFaults).1 with
            | some e =>
              ⟨.Err, tasks, false, false, false, nProcessed + batch.length,
                nDeleted, some e⟩
            | none =>
              let upto := (batch.getLast?.getD dummyTask).taskID
              let tasks2 := completeTasksApply upto batch.length tasks
              if batch.length < env.taskBatchSize then
                let ad := tryDeleteTaskList env deleteFault info
                ⟨.Done, tasks2, true, ad.attempted, ad.deleted,
                  nProcessed + batch.length, nDeleted + batch.length, none⟩
              else
                deleteLoop env info deleteFault fuel (nextFault getFaults).2
                  (nextFault completeFaults).2 tasks2
                  (nProcessed + batch.length) (nDeleted + batch.length)
    else
      ⟨.Defer, tasks, false, false, false, nProcessed, nDeleted, none⟩

/-- Source `deleteHandler`: run the deletion loop for one task list starting
from zero counters.  `tasks` is the taskID-ordered content of the task list
in persistence; the fault schedules drive the successive `getTasks` and
`completeTasks` calls, and `deleteFault` the at-most-one conditional
`deleteTaskList` call. -/
def deleteHandler (env : ScavengerEnv) (info : TaskListInfo)
    (deleteFault : Option PersistenceError)
    (getFaults completeFaults : List (Option PersistenceError))
    (tasks : List TaskInfo) : DeleteRunResult :=
  deleteLoop env info deleteFault (env.maxTasksPerJob + 1) getFaults
    completeFaults tasks 0 0

/-- What one run of `completeOrphanTasksHandler` produces. -/
structure OrphanRunResult where
  status : HandlerStatus
  nDeleted : Nat
deriving DecidableEq

/-- The `for _, taskKey := range resp.Tasks` loop of
`completeOrphanTasksHandler`: delete each orphan task individually; the
distinguished rate-limit error defers, any other error fails the run.
`pageLen` is `len(resp.Tasks)` and `batchSize` the configured page size,
compared after the loop. -/
def orphanLoop (pageLen batchSize : Nat) :
    List (Option PersistenceError) → List TaskKey → Nat → OrphanRunResult
  | _, [], nDeleted =>
    if pageLen < batchSize then ⟨.Done, nDeleted⟩ else ⟨.Defer, nDeleted⟩
  | faults, _ :: rest, nDeleted =>
    match (nextFault faults).1 with
    | some .rateLimited => ⟨.Defer, nDeleted⟩
    | some .other => ⟨.Err, nDeleted⟩
    | none => orphanLoop pageLen batchSize (nextFault faults).2 rest (nDeleted + 1)

/-- Source `completeOrphanTasksHandler`: query the orphan tasks
(`getOrphanTasks`, outcome `queryResult`), mapping the rate-limit error to
`Defer` and any other error to `Err`; then delete the page's tasks one by
one, and finally return `Done` when the page was short, `Defer` when it was
full. -/
def completeOrphanTasksHandler (batchSize : Nat)
    (queryResult : Except PersistenceError (List TaskKey))
    (completeFaults : List (Option PersistenceError)) : OrphanRunResult :=
  match queryResult with
  | .error .rateLimited => ⟨.Defer, 0⟩
  | .error .other => ⟨.Err, 0⟩
  | .ok tasks => orphanLoop tasks.length batchSize completeFaults tasks 0

/-- The data-model ordering invariant: a queue's rows are stored in
non-decreasing taskID order. -/
def SortedByID (l : List TaskInfo) : Prop :=
  l.Pairwise (fun a b => a.taskID ≤ b.taskID)

theorem processBatch_snd_false_iff (now : Int) (l : List TaskInfo) :
    (processBatch now l).2 = false ↔ ∀ t ∈ l, isTaskExpired now t = true := by
  induction l with
  | nil => simp [processBatch]
  | cons t ts ih =>
    by_cases h : isTaskExpired now t
    · simp [processBatch, h, ih]
    · simp [processBatch, h]

theorem processBatch_snd_true_of_mem (now : Int) (l : List TaskInfo)
    (t : TaskInfo) (ht : t ∈ l) (hu : isTaskExpired now t = false) :
    (processBatch now l).2 = true := by
  by_contra h
  have h2 : (processBatch now l).2 = false := by
    cases hb : (processBatch now l).2
    · rfl
    · exact absurd hb h
  exact absurd ((processBatch_snd_false_iff now l).mp h2 t ht) (by simp [hu])

theorem processBatch_fst_le (now : Int) (l : List TaskInfo) :
    (processBatch now l).1 ≤ l.length := by
  induction l with
  | nil => simp [processBatch]
  | cons t ts ih =>
    by_cases h : isTaskExpired now t
    · simpa [processBatch, h] using ih
    · simp [processBatch, h]

theorem completeTasksApply_eq_drop (upto : Int) :
    ∀ (n : Nat) (ts : List TaskInfo),
      (∀ t ∈ ts.take n, t.taskID ≤ upto) →
      completeTasksApply upto n ts = ts.drop n
  | 0, ts, _ => by simp [completeTasksApply]
  | n + 1, [], _ => by simp [completeTasksApply]
  | n + 1, t :: ts, h => by
    have ht : t.taskID ≤ upto := h t (by simp)
    simp only [completeTasksApply, if_pos ht, List.drop_succ_cons]
    exact completeTasksApply_eq_drop upto n ts
      (fun u hu => h u (by simp [List.take_cons]; exact Or.inr hu))

theorem le_getLastD_of_sorted (d : TaskInfo) :
    ∀ (l : List TaskInfo), SortedByID l →
      ∀ t ∈ l, t.taskID ≤ ((l.getLast?).getD d).taskID
  | [], _, t, ht => by simp at ht
  | [a], h, t, ht => by
    simp at ht
    simp [ht]
  | a :: b :: l, h, t, ht => by
    have hpair := (List.pairwise_cons.mp h).1
    have htail : SortedByID (b :: l) := (List.pairwise_cons.mp h).2
    have hlast : ((b :: l).getLast?.getD d) ∈ b :: l := by
      have : (b :: l).getLast? = some ((b :: l).getLast (by simp)) := by
        simp [List.getLast?_eq_getLast]
      rw [this]
      exact List.getLast_mem _
    have hgl : ((a :: b :: l).getLast?).getD d = ((b :: l).getLast?).getD d := by
      simp [List.getLast?_cons_cons]
    rw [hgl]
    rcases List.mem_cons.mp ht with rfl | hmem
    · exact hpair _ hlast
    · exact le_getLastD_of_sorted d (b :: l) htail t hmem

theorem take_batchLength (bs : Nat) (tasks : List TaskInfo) :
    tasks.take (tasks.take bs).length = tasks.take bs := by
  rw [List.length_take]
  rcases Nat.le_total bs tasks.length with h | h
  · rw [Nat.min_eq_left h]
  · rw [Nat.min_eq_right h, List.take_length, List.take_of_length_le h]

/-- Deleting a just-fetched, taskID-sorted batch through `completeTasks`
removes exactly that batch: the rows left are the rows after the batch. -/
theorem completeBatch_eq_drop (env : ScavengerEnv) (tasks : List TaskInfo)
    (hs : SortedByID tasks) :
    completeTasksApply
        (((tasks.take env.taskBatchSize).getLast?.getD dummyTask).taskID)
        (tasks.take env.taskBatchSize).length tasks
      = tasks.drop (tasks.take env.taskBatchSize).length := by
  apply completeTasksApply_eq_drop
  intro t ht
  rw [take_batchLength] at ht
  exact le_getLastD_of_sorted dummyTask (tasks.take env.taskBatchSize)
    (hs.sublist (List.take_sublist _ _)) t ht

theorem sorted_drop (tasks : List TaskInfo) (n : Nat) (hs : SortedByID tasks) :
    SortedByID (tasks.drop n) :=
  hs.sublist (List.drop_sublist _ _)

theorem tryDeleteTaskList_attempted (env : ScavengerEnv)
    (df : Option PersistenceError) (info : TaskListInfo)
    (h : (tryDeleteTaskList env df info).attempted = true) :
    info.name.startsWith scannerTaskListPrefix = false ∧
      env.gracePeriod ≤ env.now - info.lastUpdated := by
  unfold tryDeleteTaskList at h
  by_cases h1 : info.name.startsWith scannerTaskListPrefix
  · simp [h1] at h
  · by_cases h2 : env.now - info.lastUpdated < env.gracePeriod
    · simp [h1, h2] at h
    · exact ⟨by simp [h1], by omega⟩

theorem tryDeleteTaskList_skip (env : ScavengerEnv)
    (df : Option PersistenceError) (info : TaskListInfo)
    (h : info.name.startsWith scannerTaskListPrefix = true ∨
      env.now - info.lastUpdated < env.gracePeriod) :
    tryDeleteTaskList env df info = ⟨false, false⟩ := by
  unfold tryDeleteTaskList
  rcases h with h | h
  · simp [h]
  · by_cases h1 : info.name.startsWith scannerTaskListPrefix
    · simp [h1]
    · simp [h1, h]

theorem deleteLoop_err_imp_status (env : ScavengerEnv) (info : TaskListInfo)
    (df : Option PersistenceError) :
    ∀ (fuel : Nat) (gf cf : List (Option PersistenceError))
      (tasks : List TaskInfo) (p d : Nat) (e : PersistenceError),
      (deleteLoop env info df fuel gf cf tasks p d).err = some e →
      (deleteLoop env info df fuel gf cf tasks p d).status = .Err
  | 0, gf, cf, tasks, p, d, e => by
    simp [deleteLoop]
  | fuel + 1, gf, cf, tasks, p, d, e => by
    simp only [deleteLoop]
    split
    · split
      · intro _
        rfl
      · split
        · intro h
          simp at h
        · split
          · intro h
            simp at h
          · split
            · intro _
              rfl
            · split
              · intro h
                simp at h
              · exact deleteLoop_err_imp_status env info df fuel _ _ _ _ _ e
    · intro h
      simp at h

theorem batchLength_le (bs : Nat) (tasks : List TaskInfo) :
    (tasks.take bs).length ≤ bs := by
  rw [List.length_take]
  exact Nat.min_le_left _ _

/-- If a run of the deletion loop issues the conditional metadata delete,
then at that point the queue had no rows left, the task-list name is not the
scavenger's own, and the grace period had elapsed. -/
theorem deleteLoop_attempted_inv (env : ScavengerEnv) (info : TaskListInfo)
    (df : Option PersistenceError) (hbs : 0 < env.taskBatchSize) :
    ∀ (fuel : Nat) (gf cf : List (Option PersistenceError))
      (tasks : List TaskInfo) (p d : Nat), SortedByID tasks →
      (deleteLoop env info df fuel gf cf tasks p d).metaDeleteAttempted = true →
      (deleteLoop env info df fuel gf cf tasks p d).tasks = [] ∧
        info.name.startsWith scannerTaskListPrefix = false ∧
        env.gracePeriod ≤ env.now - info.lastUpdated
  | 0, gf, cf, tasks, p, d, hs => by
    simp [deleteLoop]
  | fuel + 1, gf, cf, tasks, p, d, hs => by
    simp only [deleteLoop]
    split
    · split
      · intro h
        simp at h
      · split
        · next hb =>
          intro h
          have hatt : (tryDeleteTaskList env df info).attempted = true := by
            with_reducible exact h
          have hprop := tryDeleteTaskList_attempted env df info hatt
          refine ⟨?_, hprop.1, hprop.2⟩
          rw [List.length_take] at hb
          have hlen : tasks.length = 0 := by omega
          with_reducible exact List.eq_nil_of_length_eq_zero hlen
        · split
          · intro h
            simp at h
          · split
            · intro h
              simp at h
            · split
              · next hshort =>
                intro h
                have hatt : (tryDeleteTaskList env df info).attempted = true := by
                  with_reducible exact h
                have hprop := tryDeleteTaskList_attempted env df info hatt
                refine ⟨?_, hprop.1, hprop.2⟩
                have hnil :
                    completeTasksApply
                        (((tasks.take env.taskBatchSize).getLast?.getD
                          dummyTask).taskID)
                        (tasks.take env.taskBatchSize).length tasks = [] := by
                  rw [completeBatch_eq_drop env tasks hs, List.drop_eq_nil_iff]
                  rw [List.length_take] at hshort ⊢
                  omega
                with_reducible exact hnil
              · rw [completeBatch_eq_drop env tasks hs]
                exact deleteLoop_attempted_inv env info df hbs fuel _ _ _ _ _
                  (sorted_drop tasks _ hs)
    · intro h
      simp at h

/-- If the task-list name carries the scavenger prefix, or the grace period
has not elapsed, no run of the deletion loop ever issues (let alone
completes) the metadata delete. -/
theorem deleteLoop_skip_inv (env : ScavengerEnv) (info : TaskListInfo)
    (df : Option PersistenceError)
    (h : info.name.startsWith scannerTaskListPrefix = true ∨
      env.now - info.lastUpdated < env.gracePeriod) :
    ∀ (fuel : Nat) (gf cf : List (Option PersistenceError))
      (tasks : List TaskInfo) (p d : Nat),
      (deleteLoop env info df fuel gf cf tasks p d).metaDeleteAttempted = false ∧
        (deleteLoop env info df fuel gf cf tasks p d).metaDeleted = false
  | 0, gf, cf, tasks, p, d => ⟨rfl, rfl⟩
  | fuel + 1, gf, cf, tasks, p, d => by
    simp only [deleteLoop]
    split
    · split
      · exact ⟨rfl, rfl⟩
      · split
        · rw [tryDeleteTaskList_skip env df info h]
          exact ⟨rfl, rfl⟩
        · split
          · exact ⟨rfl, rfl⟩
          · split
            · exact ⟨rfl, rfl⟩
            · split
              · rw [tryDeleteTaskList_skip env df info h]
                exact ⟨rfl, rfl⟩
              · exact deleteLoop_skip_inv env info df h fuel _ _ _ _ _
    · exact ⟨rfl, rfl⟩

/-- A task that is not expired is never removed from the queue by the
deletion loop (on a taskID-sorted queue). -/
theorem deleteLoop_preserves_unexpired (env : ScavengerEnv)
    (info : TaskListInfo) (df : Option PersistenceError) :
    ∀ (fuel : Nat) (gf cf : List (Option PersistenceError))
      (tasks : List TaskInfo) (p d : Nat) (t : TaskInfo), SortedByID tasks →
      t ∈ tasks → isTaskExpired env.now t = false →
      t ∈ (deleteLoop env info df fuel gf cf tasks p d).tasks
  | 0, gf, cf, tasks, p, d, t, hs, ht, hu => ht
  | fuel + 1, gf, cf, tasks, p, d, t, hs, ht, hu => by
    have hsplit :
        t ∈ tasks.take env.taskBatchSize ∨
          t ∈ tasks.drop (tasks.take env.taskBatchSize).length := by
      rcases List.mem_append.mp
          (by
            rw [List.take_append_drop]
            exact ht :
            t ∈ tasks.take (tasks.take env.taskBatchSize).length ++
              tasks.drop (tasks.take env.taskBatchSize).length) with hl | hr
      · rw [take_batchLength] at hl
        exact Or.inl hl
      · exact Or.inr hr
    simp only [deleteLoop]
    split
    · split
      · exact ht
      · split
        · exact ht
        · split
          · exact ht
          · next hpb =>
            simp only [Bool.not_eq_true] at hpb
            have hall := (processBatch_snd_false_iff env.now _).mp hpb
            have hdrop : t ∈ tasks.drop (tasks.take env.taskBatchSize).length := by
              rcases hsplit with hl | hr
              · exact absurd (hall t hl) (by simp [hu])
              · exact hr
            split
            · exact ht
            · split
              · rw [completeBatch_eq_drop env tasks hs]
                exact hdrop
              · rw [completeBatch_eq_drop env tasks hs]
                exact deleteLoop_preserves_unexpired env info df fuel _ _ _ _ _ t
                  (sorted_drop tasks _ hs) hdrop hu
    · exact ht

/-- The processed counter grows by at most one batch past the budget. -/
theorem deleteLoop_nProcessed_lt (env : ScavengerEnv) (info : TaskListInfo)
    (df : Option PersistenceError) :
    ∀ (fuel : Nat) (gf cf : List (Option PersistenceError))
      (tasks : List TaskInfo) (p d : Nat),
      p < env.maxTasksPerJob + env.taskBatchSize →
      (deleteLoop env info df fuel gf cf tasks p d).nProcessed <
        env.maxTasksPerJob + env.taskBatchSize
  | 0, gf, cf, tasks, p, d, hlt => hlt
  | fuel + 1, gf, cf, tasks, p, d, hlt => by
    have hlen := batchLength_le env.taskBatchSize tasks
    have hfst := processBatch_fst_le env.now (tasks.take env.taskBatchSize)
    simp only [deleteLoop]
    split
    · next hp =>
      split
      · exact hlt
      · split
        · exact hlt
        · split
          · simp only []
            omega
          · split
            · simp only []
              omega
            · split
              · simp only []
                omega
              · exact deleteLoop_nProcessed_lt env info df fuel _ _ _ _ _
                  (by omega)
    · exact hlt

/-- The run never deletes more tasks than it processed. -/
theorem deleteLoop_nDeleted_le (env : ScavengerEnv) (info : TaskListInfo)
    (df : Option PersistenceError) :
    ∀ (fuel : Nat) (gf cf : List (Option PersistenceError))
      (tasks : List TaskInfo) (p d : Nat), d ≤ p →
      (deleteLoop env info df fuel gf cf tasks p d).nDeleted ≤
        (deleteLoop env info df fuel gf cf tasks p d).nProcessed
  | 0, gf, cf, tasks, p, d, hle => hle
  | fuel + 1, gf, cf, tasks, p, d, hle => by
    simp only [deleteLoop]
    split
    · split
      · exact hle
      · split
        · exact hle
        · split
          · simp only []
            omega
          · split
            · simp only []
              omega
            · split
              · simp only []
                omega
              · exact deleteLoop_nDeleted_le env info df fuel _ _ _ _ _
                  (by omega)
    · exact hle

/-- Characterization of `Defer` for a fault-free run over a queue whose
tasks are all expired: the loop defers exactly when the processed count has
exhausted the per-run budget with every fetched batch full (so the processed
count is a whole number of batches).  `fuel` must exceed the remaining
budget, which holds for the `maxTasksPerJob + 1` units `deleteHandler`
supplies. -/
theorem deleteLoop_defer_iff (env : ScavengerEnv) (info : TaskListInfo)
    (df : Option PersistenceError) (hbs : 0 < env.taskBatchSize) :
    ∀ (fuel : Nat) (tasks : List TaskInfo) (p d : Nat),
      SortedByID tasks →
      (∀ t ∈ tasks, isTaskExpired env.now t = true) →
      env.taskBatchSize ∣ p →
      env.maxTasksPerJob - p < fuel →
      ((deleteLoop env info df fuel [] [] tasks p d).status = .Defer ↔
        env.maxTasksPerJob ≤ (deleteLoop env info df fuel [] [] tasks p d).nProcessed ∧
          env.taskBatchSize ∣ (deleteLoop env info df fuel [] [] tasks p d).nProcessed)
  | 0, tasks, p, d, hs, hexp, hdvd, hfuel => absurd hfuel (Nat.not_lt_zero _)
  | fuel + 1, tasks, p, d, hs, hexp, hdvd, hfuel => by
    have hlen := batchLength_le env.taskBatchSize tasks
    simp only [deleteLoop, nextFault]
    split
    · next hp =>
      split
      · next hb =>
        refine iff_of_false (by simp) (fun hc => ?_)
        have h1 : env.maxTasksPerJob ≤ p := by with_reducible exact hc.1
        omega
      · next hb =>
        split
        · next hpb =>
          have hfalse : (processBatch env.now (tasks.take env.taskBatchSize)).2
              = false :=
            (processBatch_snd_false_iff env.now _).mpr
              (fun t ht => hexp t (List.take_subset _ _ ht))
          rw [hfalse] at hpb
          exact absurd hpb (by simp)
        · split
          · next hshort =>
            refine iff_of_false (by simp) (fun hc => ?_)
            have hdvd2 : env.taskBatchSize ∣ (tasks.take env.taskBatchSize).length :=
              (Nat.dvd_add_right hdvd).mp hc.2
            have := Nat.le_of_dvd (by omega) hdvd2
            omega
          · next hshort =>
            have hfull : (tasks.take env.taskBatchSize).length =
                env.taskBatchSize := by omega
            rw [completeBatch_eq_drop env tasks hs]
            exact deleteLoop_defer_iff env info df hbs fuel
              (tasks.drop (tasks.take env.taskBatchSize).length)
              (p + (tasks.take env.taskBatchSize).length) _
              (sorted_drop tasks _ hs)
              (fun t ht => hexp t (List.drop_subset _ _ ht))
              (by rw [hfull]; exact Nat.dvd_add hdvd dvd_rfl)
              (by rw [hfull]; omega)
    · next hp =>
      exact iff_of_true rfl ⟨show env.maxTasksPerJob ≤ p by omega, hdvd⟩

/-- C1: in any invocation of `deleteHandler` whose (first) fetched batch
`tasks.take taskBatchSize` contains an unexpired task `t` (so in particular
no task `t_i` at or after `t`'s position is deleted: the stored rows are
left exactly as they were, and nothing is deleted at all), the handler
returns `Done` with no error reported. -/
theorem claim_C1 (env : ScavengerEnv) (info : TaskListInfo)
    (df : Option PersistenceError) (gf cf : List (Option PersistenceError))
    (tasks : List TaskInfo) (t : TaskInfo)
    (hmax : 0 < env.maxTasksPerJob)
    (hg : (nextFault gf).1 = none)
    (ht : t ∈ tasks.take env.taskBatchSize)
    (hu : isTaskExpired env.now t = false) :
    (deleteHandler env info df gf cf tasks).status = .Done ∧
      (deleteHandler env info df gf cf tasks).err = none ∧
      (deleteHandler env info df gf cf tasks).tasks = tasks ∧
      (deleteHandler env info df gf cf tasks).nDeleted = 0 := by
  have hhit := processBatch_snd_true_of_mem env.now _ t ht hu
  have hb : ¬ (tasks.take env.taskBatchSize).length = 0 := by
    intro h0
    rw [List.length_eq_zero] at h0
    rw [h0] at ht
    simp at ht
  unfold deleteHandler
  simp only [deleteLoop, if_pos hmax, hg]
  rw [if_neg hb, if_pos hhit]
  exact ⟨rfl, rfl, rfl, rfl⟩

/-- C8 (implicit): at any iteration of the deletion loop (hence for any
batch fetched during a `deleteHandler` invocation), if the fetched batch
contains an unexpired task then no task of the batch — including the
expired rows preceding it — is deleted in this invocation: the stored rows
are unchanged, the deletion counter does not move, and the handler stops
with `Done`. -/
theorem claim_C8 (env : ScavengerEnv) (info : TaskListInfo)
    (df : Option PersistenceError) (fuel : Nat)
    (gf cf : List (Option PersistenceError))
    (tasks : List TaskInfo) (p d : Nat) (t : TaskInfo)
    (hp : p < env.maxTasksPerJob)
    (hg : (nextFault gf).1 = none)
    (ht : t ∈ tasks.take env.taskBatchSize)
    (hu : isTaskExpired env.now t = false) :
    (deleteLoop env info df (fuel + 1) gf cf tasks p d).tasks = tasks ∧
      (deleteLoop env info df (fuel + 1) gf cf tasks p d).nDeleted = d ∧
      (deleteLoop env info df (fuel + 1) gf cf tasks p d).status = .Done := by
  have hhit := processBatch_snd_true_of_mem env.now _ t ht hu
  have hb : ¬ (tasks.take env.taskBatchSize).length = 0 := by
    intro h0
    rw [List.length_eq_zero] at h0
    rw [h0] at ht
    simp at ht
  simp only [deleteLoop, if_pos hp, hg]
  rw [if_neg hb, if_pos hhit]
  exact ⟨rfl, rfl, rfl⟩

/-- C4: if the first fetched batch is empty, `deleteHandler` invokes the
idle-deletion routine `tryDeleteTaskList` and returns `Done`; and if a
fully-expired first batch shorter than the page size is deleted, it likewise
invokes `tryDeleteTaskList` and returns `Done`. -/
theorem claim_C4 (env : ScavengerEnv) (info : TaskListInfo)
    (df : Option PersistenceError) (gf cf : List (Option PersistenceError))
    (tasks : List TaskInfo)
    (hmax : 0 < env.maxTasksPerJob)
    (hg : (nextFault gf).1 = none) :
    (tasks.take env.taskBatchSize = [] →
      (deleteHandler env info df gf cf tasks).status = .Done ∧
        (deleteHandler env info df gf cf tasks).triedDelete = true) ∧
    ((nextFault cf).1 = none →
      ¬ tasks.take env.taskBatchSize = [] →
      (∀ t ∈ tasks.take env.taskBatchSize, isTaskExpired env.now t = true) →
      (tasks.take env.taskBatchSize).length < env.taskBatchSize →
      (deleteHandler env info df gf cf tasks).status = .Done ∧
        (deleteHandler env info df gf cf tasks).triedDelete = true ∧
        (deleteHandler env info df gf cf tasks).nDeleted =
          (tasks.take env.taskBatchSize).length) := by
  constructor
  · intro hempty
    have hb : (tasks.take env.taskBatchSize).length = 0 := by
      rw [hempty]
      rfl
    unfold deleteHandler
    simp only [deleteLoop, if_pos hmax, hg]
    rw [if_pos hb]
    exact ⟨rfl, rfl⟩
  · intro hc hne hall hshort
    have hb : ¬ (tasks.take env.taskBatchSize).length = 0 := by
      intro h0
      exact hne (List.eq_nil_of_length_eq_zero h0)
    have hfalse : ¬ (processBatch env.now (tasks.take env.taskBatchSize)).2
        = true := by
      rw [(processBatch_snd_false_iff env.now _).mpr hall]
      simp
    unfold deleteHandler
    simp only [deleteLoop, if_pos hmax, hg]
    rw [if_neg hb, if_neg hfalse]
    simp only [hc]
    rw [if_pos hshort]
    refine ⟨rfl, rfl, ?_⟩
    show 0 + (tasks.take env.taskBatchSize).length =
      (tasks.take env.taskBatchSize).length
    omega

/-- Concrete run refuting C6 as stated: a rate-limited failure of the task
fetch makes `deleteHandler` return `Err`, not `Defer`. -/
theorem claim_C6_counterexample :
    (deleteHandler ⟨1000, 10, 5, 5⟩ ⟨"domain", "tl0", 0, 1, 0⟩ none
        [some .rateLimited] [] [⟨1, 1⟩]).status = .Err ∧
      ¬ (deleteHandler ⟨1000, 10, 5, 5⟩ ⟨"domain", "tl0", 0, 1, 0⟩ none
        [some .rateLimited] [] [⟨1, 1⟩]).status = .Defer := by
  decide

/-- C6 (amended): when a persistence call of `deleteHandler` fails — with
the rate-limited error or any other — the handler returns `Err`, never
`Defer`: any run that records an error has status `Err`, and in particular a
failed first fetch yields `Err` carrying that error. -/
theorem claim_C6 (env : ScavengerEnv) (info : TaskListInfo)
    (df : Option PersistenceError) (gf cf : List (Option PersistenceError))
    (tasks : List TaskInfo) :
    (∀ e, (deleteHandler env info df gf cf tasks).err = some e →
      (deleteHandler env info df gf cf tasks).status = .Err) ∧
    (∀ e, 0 < env.maxTasksPerJob → (nextFault gf).1 = some e →
      (deleteHandler env info df gf cf tasks).status = .Err ∧
        (deleteHandler env info df gf cf tasks).err = some e) := by
  constructor
  · intro e
    exact deleteLoop_err_imp_status env info df _ gf cf tasks 0 0 e
  · intro e hmax hg
    unfold deleteHandler
    simp only [deleteLoop, if_pos hmax, hg]
    refine ⟨?_, ?_⟩ <;> simp

/-- C2: the scavenger issues the queue-metadata delete only when the queue
has no remaining task rows at the point of the call, the queue name does
not carry the scavenger's own prefix, and the grace period since
`lastUpdated` has elapsed; when the prefix or grace precondition fails, the
delete is neither issued nor performed and the metadata is left intact. -/
theorem claim_C2 (env : ScavengerEnv) (info : TaskListInfo)
    (df : Option PersistenceError) (gf cf : List (Option PersistenceError))
    (tasks : List TaskInfo) (hs : SortedByID tasks)
    (hbs : 0 < env.taskBatchSize) :
    ((deleteHandler env info df gf cf tasks).metaDeleteAttempted = true →
      (deleteHandler env info df gf cf tasks).tasks = [] ∧
        info.name.startsWith scannerTaskListPrefix = false ∧
        env.gracePeriod ≤ env.now - info.lastUpdated) ∧
    (info.name.startsWith scannerTaskListPrefix = true ∨
        env.now - info.lastUpdated < env.gracePeriod →
      (deleteHandler env info df gf cf tasks).metaDeleteAttempted = false ∧
        (deleteHandler env info df gf cf tasks).metaDeleted = false) := by
  constructor
  · exact deleteLoop_attempted_inv env info df hbs _ gf cf tasks 0 0 hs
  · intro h
    exact deleteLoop_skip_inv env info df h _ gf cf tasks 0 0

/-- C7: a task whose expiry timestamp is zero is never classified as
expired, whatever the current time, and the expired-task reclaim never
removes such a task from a (taskID-sorted) queue. -/
theorem claim_C7 (env : ScavengerEnv) (info : TaskListInfo)
    (df : Option PersistenceError) (gf cf : List (Option PersistenceError))
    (tasks : List TaskInfo) (t : TaskInfo) (hz : t.expiry = 0) :
    (∀ now : Int, isTaskExpired now t = false) ∧
    (SortedByID tasks → t ∈ tasks →
      t ∈ (deleteHandler env info df gf cf tasks).tasks) := by
  have hexp : ∀ now : Int, isTaskExpired now t = false := by
    intro now
    simp [isTaskExpired, hz]
  refine ⟨hexp, fun hs ht => ?_⟩
  exact deleteLoop_preserves_unexpired env info df _ gf cf tasks 0 0 t hs ht
    (hexp env.now)

/-- C9 (implicit): the budget is only checked before each batch, so one run
of `deleteHandler` processes strictly fewer than
`maxTasksPerJob + taskBatchSize` tasks, and deletes no more than it
processes (the bound needs the configuration to be non-degenerate:
`maxTasksPerJob + taskBatchSize > 0`). -/
theorem claim_C9 (env : ScavengerEnv) (info : TaskListInfo)
    (df : Option PersistenceError) (gf cf : List (Option PersistenceError))
    (tasks : List TaskInfo)
    (hpos : 0 < env.maxTasksPerJob + env.taskBatchSize) :
    (deleteHandler env info df gf cf tasks).nProcessed <
        env.maxTasksPerJob + env.taskBatchSize ∧
      (deleteHandler env info df gf cf tasks).nDeleted ≤
        (deleteHandler env info df gf cf tasks).nProcessed :=
  ⟨deleteLoop_nProcessed_lt env info df _ gf cf tasks 0 0 hpos,
    deleteLoop_nDeleted_le env info df _ gf cf tasks 0 0 (Nat.le_refl 0)⟩

/-- Run parameters of the spec's Scenario E: page size 100, per-run budget
100, grace period elapsed (lastUpdated = 0, now far beyond the grace
period). -/
def scenarioEnv : ScavengerEnv := ⟨2000000, 1000, 100, 100⟩

/-- Scenario E task list: an ordinary (non-scavenger) queue, idle since
time 0. -/
def scenarioInfo : TaskListInfo := ⟨"domain", "tl0", 0, 1, 0⟩

/-- Scenario E queue content: 150 tasks with taskIDs 1..150, all expired
(expiry 1, far before `scenarioEnv.now`). -/
def scenarioTasks : List TaskInfo :=
  (List.range 150).map (fun i => ⟨(i : Int) + 1, 1⟩)

/-- C3: over a queue whose tasks are all expired, a fault-free
`deleteHandler` run returns `Defer` exactly when the per-run budget is
exhausted with every fetched batch full (the processed count reaches
`maxTasksPerJob` and is a whole number of batches); and in Scenario E
(150 expired tasks, budget 100, page size 100) the first run deletes 100
tasks and defers, while the second run deletes the remaining 50, performs
the idle metadata deletion, and returns `Done`. -/
theorem claim_C3 :
    (∀ (env : ScavengerEnv) (info : TaskListInfo)
        (df : Option PersistenceError) (tasks : List TaskInfo),
      0 < env.taskBatchSize → SortedByID tasks →
      (∀ t ∈ tasks, isTaskExpired env.now t = true) →
      ((deleteHandler env info df [] [] tasks).status = .Defer ↔
        env.maxTasksPerJob ≤ (deleteHandler env info df [] [] tasks).nProcessed ∧
          env.taskBatchSize ∣ (deleteHandler env info df [] [] tasks).nProcessed)) ∧
    ((deleteHandler scenarioEnv scenarioInfo none [] [] scenarioTasks).status
        = .Defer ∧
      (deleteHandler scenarioEnv scenarioInfo none [] [] scenarioTasks).nDeleted
        = 100 ∧
      (deleteHandler scenarioEnv scenarioInfo none [] []
          (deleteHandler scenarioEnv scenarioInfo none [] []
            scenarioTasks).tasks).status = .Done ∧
      (deleteHandler scenarioEnv scenarioInfo none [] []
          (deleteHandler scenarioEnv scenarioInfo none [] []
            scenarioTasks).tasks).nDeleted = 50 ∧
      (deleteHandler scenarioEnv scenarioInfo none [] []
          (deleteHandler scenarioEnv scenarioInfo none [] []
            scenarioTasks).tasks).metaDeleted = true ∧
      (deleteHandler scenarioEnv scenarioInfo none [] []
          (deleteHandler scenarioEnv scenarioInfo none [] []
            scenarioTasks).tasks).tasks = []) := by
  constructor
  · intro env info df tasks hbs hs hexp
    exact deleteLoop_defer_iff env info df hbs _ tasks 0 0 hs hexp
      (Nat.dvd_zero _) (by omega)
  · decide

/-- Deleting orphan tasks one by one: with the first `j` deletions
succeeding and the `(j+1)`-st failing inside the page, the loop stops right
there with `Defer` on the rate-limit error and `Err` otherwise, having
deleted exactly the `j` predecessors. -/
theorem orphanLoop_fault (pageLen bs : Nat) (e : PersistenceError)
    (rest : List (Option PersistenceError)) :
    ∀ (j : Nat) (tasks : List TaskKey) (n : Nat), j < tasks.length →
      orphanLoop pageLen bs (List.replicate j none ++ some e :: rest) tasks n =
        ⟨if e = .rateLimited then .Defer else .Err, n + j⟩
  | 0, [], n, h => absurd h (by simp)
  | 0, t :: ts, n, h => by
    cases e <;> simp [orphanLoop, nextFault]
  | j + 1, [], n, h => absurd h (by simp)
  | j + 1, t :: ts, n, h => by
    simp only [List.replicate, List.cons_append, orphanLoop, nextFault]
    rw [orphanLoop_fault pageLen bs e rest j ts (n + 1) (by simpa using h)]
    have harith : n + 1 + j = n + (j + 1) := by omega
    rw [harith]

/-- Fault-free orphan deletion: the whole page is deleted and the final
status only compares the page length with the configured batch size. -/
theorem orphanLoop_ok (pageLen bs : Nat) :
    ∀ (tasks : List TaskKey) (n : Nat),
      orphanLoop pageLen bs [] tasks n =
        ⟨if pageLen < bs then .Done else .Defer, n + tasks.length⟩
  | [], n => by
    simp only [orphanLoop]
    split <;> rfl
  | t :: ts, n => by
    simp only [orphanLoop, nextFault]
    rw [orphanLoop_ok pageLen bs ts (n + 1)]
    have harith : n + 1 + ts.length = n + (t :: ts).length := by
      simp [List.length_cons]
      omega
    rw [harith]

/-- C5: `completeOrphanTasksHandler` maps a rate-limited orphan query to
`Defer` and any other query failure to `Err`; and when the `(j+1)`-st
individual orphan deletion of the page fails, it returns `Defer` on the
rate-limited error and `Err` on any other, having deleted the `j`
predecessors. -/
theorem claim_C5 (bs : Nat) (tasks : List TaskKey)
    (faults rest : List (Option PersistenceError)) (j : Nat)
    (e : PersistenceError) :
    (completeOrphanTasksHandler bs (.error .rateLimited) faults).status
        = .Defer ∧
    (completeOrphanTasksHandler bs (.error .other) faults).status = .Err ∧
    (j < tasks.length →
      ((completeOrphanTasksHandler bs (.ok tasks)
          (List.replicate j none ++ some e :: rest)).status
        = if e = .rateLimited then HandlerStatus.Defer else .Err) ∧
      (completeOrphanTasksHandler bs (.ok tasks)
          (List.replicate j none ++ some e :: rest)).nDeleted = j) := by
  refine ⟨rfl, rfl, fun hj => ?_⟩
  simp only [completeOrphanTasksHandler]
  rw [orphanLoop_fault tasks.length bs e rest j tasks 0 hj]
  refine ⟨rfl, ?_⟩
  show 0 + j = j
  omega

/-- C10 (implicit): when every orphan deletion of the fetched page
succeeds, the handler deletes the whole page and returns `Done` when the
page was shorter than the configured page size and `Defer` when it was
full. -/
theorem claim_C10 (bs : Nat) (tasks : List TaskKey) :
    (completeOrphanTasksHandler bs (.ok tasks) []).nDeleted = tasks.length ∧
    (tasks.length < bs →
      (completeOrphanTasksHandler bs (.ok tasks) []).status = .Done) ∧
    (bs ≤ tasks.length →
      (completeOrphanTasksHandler bs (.ok tasks) []).status = .Defer) := by
  simp only [completeOrphanTasksHandler]
  rw [orphanLoop_ok tasks.length bs tasks 0]
  refine ⟨by show 0 + tasks.length = tasks.length; omega, fun h => ?_, fun h => ?_⟩
  · show (if tasks.length < bs then HandlerStatus.Done else .Defer) = .Done
    rw [if_pos h]
  · show (if tasks.length < bs then HandlerStatus.Done else .Defer) = .Defer
    rw [if_neg (by omega)]

/-- Small concrete run parameters for witnesses: page size 2, budget 3,
grace period elapsed. -/
def envA : ScavengerEnv := ⟨100, 10, 2, 3⟩

/-- Small concrete task list for witnesses: ordinary name, idle since 0. -/
def infoA : TaskListInfo := ⟨"d", "q", 0, 1, 0⟩

theorem claim_C1_witness :
    (deleteHandler envA infoA none [] [] [⟨1, 0⟩]).status = .Done ∧
      (deleteHandler envA infoA none [] [] [⟨1, 0⟩]).err = none ∧
      (deleteHandler envA infoA none [] [] [⟨1, 0⟩]).tasks = [⟨1, 0⟩] ∧
      (deleteHandler envA infoA none [] [] [⟨1, 0⟩]).nDeleted = 0 :=
  claim_C1 envA infoA none [] [] [⟨1, 0⟩] ⟨1, 0⟩ (by decide) rfl (by decide)
    (by decide)

theorem claim_C2_witness :
    (deleteHandler envA infoA none [] [] []).tasks = [] ∧
      infoA.name.startsWith scannerTaskListPrefix = false ∧
      envA.gracePeriod ≤ envA.now - infoA.lastUpdated :=
  (claim_C2 envA infoA none [] [] [] (by simp [SortedByID]) (by decide)).1
    (by decide)

theorem claim_C3_witness :
    (deleteHandler envA infoA none [] [] [⟨1, 1⟩, ⟨2, 1⟩]).status = .Defer ↔
      envA.maxTasksPerJob ≤
          (deleteHandler envA infoA none [] [] [⟨1, 1⟩, ⟨2, 1⟩]).nProcessed ∧
        envA.taskBatchSize ∣
          (deleteHandler envA infoA none [] [] [⟨1, 1⟩, ⟨2, 1⟩]).nProcessed :=
  claim_C3.1 envA infoA none [⟨1, 1⟩, ⟨2, 1⟩] (by decide) (by simp [SortedByID])
    (by decide)

theorem claim_C4_witness :
    (deleteHandler envA infoA none [] [] [⟨1, 1⟩]).status = .Done ∧
      (deleteHandler envA infoA none [] [] [⟨1, 1⟩]).triedDelete = true ∧
      (deleteHandler envA infoA none [] [] [⟨1, 1⟩]).nDeleted =
        ([⟨1, 1⟩] : List TaskInfo).length :=
  (claim_C4 envA infoA none [] [] [⟨1, 1⟩] (by decide) rfl).2 rfl (by decide)
    (by decide) (by decide)

theorem claim_C5_witness :
    ((completeOrphanTasksHandler 2 (.ok [⟨"d", "q", 0, 1⟩])
        (List.replicate 0 none ++ some .rateLimited :: [])).status
      = if PersistenceError.rateLimited = .rateLimited
          then HandlerStatus.Defer else .Err) ∧
      (completeOrphanTasksHandler 2 (.ok [⟨"d", "q", 0, 1⟩])
        (List.replicate 0 none ++ some .rateLimited :: [])).nDeleted = 0 :=
  (claim_C5 2 [⟨"d", "q", 0, 1⟩] [] [] 0 .rateLimited).2.2 (by decide)

theorem claim_C6_witness :
    (deleteHandler ⟨1000, 10, 5, 5⟩ ⟨"domain", "tl0", 0, 1, 0⟩ none
        [some .rateLimited] [] [⟨1, 1⟩]).status = .Err :=
  (claim_C6 ⟨1000, 10, 5, 5⟩ ⟨"domain", "tl0", 0, 1, 0⟩ none
      [some .rateLimited] [] [⟨1, 1⟩]).1 .rateLimited (by decide)

theorem claim_C7_witness :
    isTaskExpired 100 ⟨1, 0⟩ = false ∧
      (⟨1, 0⟩ : TaskInfo) ∈ (deleteHandler envA infoA none [] [] [⟨1, 0⟩]).tasks :=
  ⟨(claim_C7 envA infoA none [] [] [⟨1, 0⟩] ⟨1, 0⟩ rfl).1 100,
    (claim_C7 envA infoA none [] [] [⟨1, 0⟩] ⟨1, 0⟩ rfl).2
      (by simp [SortedByID]) (by decide)⟩

theorem claim_C8_witness :
    (deleteLoop envA infoA none (0 + 1) [] [] [⟨1, 0⟩] 0 0).tasks = [⟨1, 0⟩] ∧
      (deleteLoop envA infoA none (0 + 1) [] [] [⟨1, 0⟩] 0 0).nDeleted = 0 ∧
      (deleteLoop envA infoA none (0 + 1) [] [] [⟨1, 0⟩] 0 0).status = .Done :=
  claim_C8 envA infoA none 0 [] [] [⟨1, 0⟩] 0 0 ⟨1, 0⟩ (by decide) rfl
    (by decide) (by decide)

theorem claim_C9_witness :
    (deleteHandler envA infoA none [] [] [⟨1, 1⟩, ⟨2, 1⟩, ⟨3, 1⟩]).nProcessed <
        envA.maxTasksPerJob + envA.taskBatchSize ∧
      (deleteHandler envA infoA none [] [] [⟨1, 1⟩, ⟨2, 1⟩, ⟨3, 1⟩]).nDeleted ≤
        (deleteHandler envA infoA none [] [] [⟨1, 1⟩, ⟨2, 1⟩, ⟨3, 1⟩]).nProcessed :=
  claim_C9 envA infoA none [] [] [⟨1, 1⟩, ⟨2, 1⟩, ⟨3, 1⟩] (by decide)

theorem claim_C10_witness :
    (completeOrphanTasksHandler 2 (.ok [⟨"d", "q", 0, 1⟩]) []).nDeleted = 1 ∧
      (completeOrphanTasksHandler 2 (.ok [⟨"d", "q", 0, 1⟩]) []).status = .Done :=
  ⟨(claim_C10 2 [⟨"d", "q", 0, 1⟩]).1,
    (claim_C10 2 [⟨"d", "q", 0, 1⟩]).2.1 (by decide)⟩

end Tasklist
end Cadence
